import Mathlib

/-!
Verification of the type-tag-directed field accessors of
`src/rapidjson_utils/c++17/rapidjson_utils.hpp` (namespace `rjutils`) and of
the bit-preserving cast of `src/castkeepingbits/CastKeepingBits.hpp`.

The document tree is the rapidjson DOM the header operates on.  A node holds
exactly one kind (null, bool, number, string, array, object); a number is
stored either in integer form or as a double.  rapidjson's kind queries on an
integer-stored number are value-dependent: `IsInt()` holds iff the value fits
a signed 32-bit integer, `IsUint()` iff it fits unsigned 32 bits, `IsInt64()`
/ `IsUint64()` likewise for 64 bits, and `IsDouble()` holds only for a number
stored in double form, never for an integer-stored one.  We model integer
payloads as unbounded `Int` (integer-stored nodes produced by rapidjson always
fit 64 bits) and double payloads as `Rat`, the exact value; IEEE narrowing of
a double to 32-bit float (`static_cast<float>`) is modelled by the wrapper
`castF32`, which records that the narrowing conversion was applied.
-/

namespace RJUtils

/-- Model of a rapidjson document-tree node (`rapidjson::Value`).  A member
lookup on a non-object node is an assertion failure in rapidjson; the model
totalises it to "no member". -/
inductive JValue where
  | jNull : JValue
  | jBool (b : Bool) : JValue
  | jInt (n : Int) : JValue
  | jDouble (x : Rat) : JValue
  | jString (s : String) : JValue
  | jArray (elems : List JValue) : JValue
  | jObject (fields : List (String × JValue)) : JValue
deriving Repr

/-- `rapidjson::Value::IsNumber()`: the node is a number (integer- or
double-stored). -/
def JValue.isNumber : JValue → Bool
  | .jInt _ => true
  | .jDouble _ => true
  | _ => false

/-- `IsInt()`: integer-stored number whose value fits a signed 32-bit int. -/
def JValue.isInt : JValue → Bool
  | .jInt n => decide (-(2 ^ 31) ≤ n ∧ n < 2 ^ 31)
  | _ => false

/-- `IsUint()`: integer-stored number fitting an unsigned 32-bit int. -/
def JValue.isUint : JValue → Bool
  | .jInt n => decide (0 ≤ n ∧ n < 2 ^ 32)
  | _ => false

/-- `IsInt64()`: integer-stored number fitting a signed 64-bit int. -/
def JValue.isInt64 : JValue → Bool
  | .jInt n => decide (-(2 ^ 63) ≤ n ∧ n < 2 ^ 63)
  | _ => false

/-- `IsUint64()`: integer-stored number fitting an unsigned 64-bit int. -/
def JValue.isUint64 : JValue → Bool
  | .jInt n => decide (0 ≤ n ∧ n < 2 ^ 64)
  | _ => false

/-- `IsDouble()`: the number is stored in double form (the `kDoubleFlag` of
rapidjson); false for every integer-stored number. -/
def JValue.isDouble : JValue → Bool
  | .jDouble _ => true
  | _ => false

/-- `IsBool()`. -/
def JValue.isBool : JValue → Bool
  | .jBool _ => true
  | _ => false

/-- `IsString()`. -/
def JValue.isString : JValue → Bool
  | .jString _ => true
  | _ => false

/-- `IsArray()`. -/
def JValue.isArray : JValue → Bool
  | .jArray _ => true
  | _ => false

/-- `IsObject()`. -/
def JValue.isObject : JValue → Bool
  | .jObject _ => true
  | _ => false

/-- `FindMember` / `operator[]`: first member with the given name, in
insertion order.  `none` when the key is absent (or the node is not an
object, which rapidjson treats as a caller error). -/
def getMember : JValue → String → Option JValue
  | .jObject fields, key => (fields.find? (fun p => p.1 == key)).map Prod.snd
  | _, _ => none

/-- `HasMember`. -/
def hasMember (target : JValue) (member : String) : Bool :=
  (getMember target member).isSome

/-- Integer payload of a number node (`GetInt` / `GetInt64` / `GetUint` /
`GetUint64`; the accessors below only call it under the matching kind
guard). -/
def JValue.getIntVal : JValue → Int
  | .jInt n => n
  | _ => 0

/-- `GetDouble()`: double payload (exact value); on an integer-stored number
rapidjson converts the integer. -/
def JValue.getDoubleVal : JValue → Rat
  | .jDouble x => x
  | .jInt n => (n : Rat)
  | _ => 0

/-- `GetBool()`. -/
def JValue.getBoolVal : JValue → Bool
  | .jBool b => b
  | _ => false

/-- `GetString()`. -/
def JValue.getStringVal : JValue → String
  | .jString s => s
  | _ => ""

/-- The closed set of type tags the accessor templates dispatch over: the
`DataType` template argument.  `tString` stands for the whole string family
(`char`, `const char*`, `std::string`, ...); `tFloat64` covers `double` and
every other non-`float` floating type.  `tGenSigned w` / `tGenUnsigned w`
are the catch-all arms for the remaining signed / unsigned integral types,
carrying the bit width `w` of the instantiated type: on the modelled
LLP64 ABI these are `signed char`/`short`/`long` and their unsigned
counterparts (widths 8, 16, 32 — the 64-bit-wide integral types are the
`int64_t`/`uint64_t` typedefs and take the exact-width arms). -/
inductive Tag where
  | tInt32 : Tag
  | tUint32 : Tag
  | tInt64 : Tag
  | tUint64 : Tag
  | tBool : Tag
  | tFloat32 : Tag
  | tFloat64 : Tag
  | tString : Tag
  | tGenSigned (w : Nat) : Tag
  | tGenUnsigned (w : Nat) : Tag
deriving DecidableEq, Repr

/-- Model of the C++ `float` type: a value produced by narrowing a double.
IEEE rounding is not modelled; the wrapper keeps the exact narrowed value and
records that `static_cast<float>` was applied. -/
structure F32 where
  val : Rat
deriving DecidableEq, Repr

/-- `static_cast<float>(double)`, the narrowing conversion used by the
float arm of `Extract`. -/
def castF32 (x : Rat) : F32 := ⟨x⟩

/-- The implicit integral conversion of a 64-bit value to a `w`-bit signed
integral `DataType` performed by `return target_element[member].GetInt64();`
in the generic signed arm: two's-complement wrap to `w` bits, the behavior
of the modelled compilers. -/
def wrapSigned (w : Nat) (n : Int) : Int :=
  let b := n % (2 ^ w : Int)
  if b < 2 ^ (w - 1) then b else b - 2 ^ w

/-- The implicit integral conversion of a 64-bit value to a `w`-bit unsigned
integral `DataType` in the generic unsigned arm: reduction modulo `2^w`. -/
def wrapUnsigned (w : Nat) (n : Int) : Int := n % (2 ^ w : Int)

/-- The value type each tag extracts to. -/
@[reducible]
def Tag.carrier : Tag → Type
  | .tInt32 => Int
  | .tUint32 => Int
  | .tInt64 => Int
  | .tUint64 => Int
  | .tBool => Bool
  | .tFloat32 => F32
  | .tFloat64 => Rat
  | .tString => String
  | .tGenSigned _ => Int
  | .tGenUnsigned _ => Int

instance (t : Tag) : DecidableEq t.carrier := by
  cases t <;> exact inferInstanceAs (DecidableEq _)

/-- `rjutils::IsValid<DataType>(target_element, member)`, lines 69-103 of
`rapidjson_utils.hpp`: false when the member is absent, otherwise the
`if constexpr` dispatch on `DataType` applies the kind query of the tag's
row. -/
def IsValid (target : JValue) (member : String) (t : Tag) : Bool :=
  match getMember target member with
  | none => false
  | some v =>
    match t with
    | .tInt32 => v.isInt
    | .tUint32 => v.isUint
    | .tInt64 => v.isInt64
    | .tUint64 => v.isUint64
    | .tBool => v.isBool
    | .tFloat32 => v.isDouble
    | .tFloat64 => v.isDouble
    | .tString => v.isString
    | .tGenSigned _ => v.isInt64
    | .tGenUnsigned _ => v.isUint64

/-- `rjutils::IsValidArray(target_element, member)`, lines 105-110:
`HasMember && IsArray`. -/
def IsValidArray (target : JValue) (member : String) : Bool :=
  match getMember target member with
  | none => false
  | some v => v.isArray

/-- `rjutils::IsValidObject(target_element, member)`, lines 112-117:
`HasMember && IsObject`. -/
def IsValidObject (target : JValue) (member : String) : Bool :=
  match getMember target member with
  | none => false
  | some v => v.isObject

/-- `rjutils::Extract<DataType>(target_element, member, default_value)`,
lines 119-194: default when the member is absent; otherwise each
`if constexpr` arm reads the value under its kind guard and falls through to
the default on a kind mismatch (the debug-only `assert` in the `int32_t` arm
does not change the returned value).  In the generic integral arms the
64-bit payload returned by `GetInt64()` / `GetUint64()` is implicitly
converted to the narrower generic `DataType`, wrapping out-of-range
values. -/
def Extract (target : JValue) (member : String) (t : Tag) (d : t.carrier) :
    t.carrier :=
  match getMember target member with
  | none => d
  | some v =>
    match t, d with
    | .tInt32, d => if v.isInt then v.getIntVal else d
    | .tUint32, d => if v.isUint then v.getIntVal else d
    | .tInt64, d => if v.isInt64 then v.getIntVal else d
    | .tUint64, d => if v.isUint64 then v.getIntVal else d
    | .tBool, d => if v.isBool then v.getBoolVal else d
    | .tFloat32, d => if v.isDouble then castF32 v.getDoubleVal else d
    | .tFloat64, d => if v.isDouble then v.getDoubleVal else d
    | .tString, d => if v.isString then v.getStringVal else d
    | .tGenSigned w, d => if v.isInt64 then wrapSigned w v.getIntVal else d
    | .tGenUnsigned w, d => if v.isUint64 then wrapUnsigned w v.getIntVal else d

/-!
Model of the C `strtol` family used by `ExtractFromNumericOrString`.  The
header targets the Windows/LLP64 ABI its author develops on (the `_WIN32`
branches and the in-code comments asserting `ERANGE` on a 32-bit overflow),
where `long` and `unsigned long` are 32 bits wide; `strtol` / `strtoul` are
modelled at that width.  `errno` is threaded explicitly: the C functions set
it to `ERANGE` on overflow and leave it untouched otherwise — in particular
they do NOT reset a pre-existing value, and they do not set it when no digits
can be parsed (they just return 0).
-/

/-- The `ERANGE` value of `errno.h` (34 on the modelled platforms). -/
def ERANGE : Nat := 34

/-- `isspace` in the default C locale. -/
def isSpaceC (c : Char) : Bool :=
  c = ' ' || c = '\t' || c = '\n' || c = '\x0b' || c = '\x0c' || c = '\r'

/-- Consume a maximal run of decimal digits: accumulated value, number of
digits consumed, and the rest of the input. -/
def parseDigitsRest : List Char → Nat → Nat → Nat × Nat × List Char
  | [], acc, k => (acc, k, [])
  | c :: cs, acc, k =>
    if c.isDigit then parseDigitsRest cs (acc * 10 + (c.toNat - 48)) (k + 1)
    else (acc, k, c :: cs)

/-- Outcome of scanning the subject sequence of a base-10 integer literal:
sign, unbounded magnitude, and whether at least one digit was found. -/
structure IntScan where
  neg : Bool
  mag : Nat
  found : Bool
deriving Repr

/-- The subject sequence of `strtol(s, _, 10)`: optional whitespace, optional
single sign, then a maximal digit run. -/
def scanIntText (s : String) : IntScan :=
  let cs := s.data.dropWhile isSpaceC
  match cs with
  | '-' :: rest =>
    let r := parseDigitsRest rest 0 0
    ⟨true, r.1, r.2.1 ≠ 0⟩
  | '+' :: rest =>
    let r := parseDigitsRest rest 0 0
    ⟨false, r.1, r.2.1 ≠ 0⟩
  | _ =>
    let r := parseDigitsRest cs 0 0
    ⟨false, r.1, r.2.1 ≠ 0⟩

/-- `strtol(s, nullptr, 10)` with 32-bit `long`, returning (value, errno):
0 with errno untouched when no digits parse, the clamped bound with
`errno = ERANGE` on overflow, the exact value with errno untouched
otherwise. -/
def strtolM (s : String) (errno : Nat) : Int × Nat :=
  let p := scanIntText s
  if ¬ p.found then (0, errno)
  else
    let v : Int := if p.neg then -(p.mag : Int) else (p.mag : Int)
    if v > 2 ^ 31 - 1 then (2 ^ 31 - 1, ERANGE)
    else if v < -(2 ^ 31) then (-(2 ^ 31), ERANGE)
    else (v, errno)

/-- `strtoul(s, nullptr, 10)` with 32-bit `unsigned long`.  A leading minus
sign is accepted and the converted magnitude is negated in unsigned
arithmetic (wrapping mod 2^32); `ERANGE` fires only when the magnitude
itself exceeds `ULONG_MAX`. -/
def strtoulM (s : String) (errno : Nat) : Int × Nat :=
  let p := scanIntText s
  if ¬ p.found then (0, errno)
  else if (p.mag : Int) > 2 ^ 32 - 1 then (2 ^ 32 - 1, ERANGE)
  else if p.neg then ((2 ^ 32 - (p.mag : Int)) % 2 ^ 32, errno)
  else ((p.mag : Int), errno)

/-- `strtoll(s, nullptr, 10)` (64-bit on every modelled platform). -/
def strtollM (s : String) (errno : Nat) : Int × Nat :=
  let p := scanIntText s
  if ¬ p.found then (0, errno)
  else
    let v : Int := if p.neg then -(p.mag : Int) else (p.mag : Int)
    if v > 2 ^ 63 - 1 then (2 ^ 63 - 1, ERANGE)
    else if v < -(2 ^ 63) then (-(2 ^ 63), ERANGE)
    else (v, errno)

/-- `strtoull(s, nullptr, 10)` (64-bit). -/
def strtoullM (s : String) (errno : Nat) : Int × Nat :=
  let p := scanIntText s
  if ¬ p.found then (0, errno)
  else if (p.mag : Int) > 2 ^ 64 - 1 then (2 ^ 64 - 1, ERANGE)
  else if p.neg then ((2 ^ 64 - (p.mag : Int)) % 2 ^ 64, errno)
  else ((p.mag : Int), errno)

/-- Outcome of scanning a decimal floating literal: exact value and whether
any mantissa digit was found. -/
structure FloatScan where
  val : Rat
  found : Bool
deriving Repr

/-- The subject sequence of `strtod` / `strtof` for a plain decimal literal:
optional whitespace and sign, digits, optional fraction, optional exponent
(consumed only when it has at least one digit).  Hexadecimal, infinity and
NaN forms are not modelled; no claim exercises them. -/
def scanFloatText (s : String) : FloatScan :=
  let cs := s.data.dropWhile isSpaceC
  let signRest : Bool × List Char :=
    match cs with
    | '-' :: rest => (true, rest)
    | '+' :: rest => (false, rest)
    | _ => (false, cs)
  let ipart := parseDigitsRest signRest.2 0 0
  let fpart :=
    match ipart.2.2 with
    | '.' :: rest => parseDigitsRest rest 0 0
    | _ => (0, 0, ipart.2.2)
  if ipart.2.1 + fpart.2.1 = 0 then ⟨0, false⟩
  else
    let mant : Rat := (ipart.1 : Rat) + (fpart.1 : Rat) / ((10 : Rat) ^ fpart.2.1)
    let scaled : Rat :=
      match fpart.2.2 with
      | 'e' :: rest | 'E' :: rest =>
        (match rest with
         | '-' :: rest2 =>
           let e := parseDigitsRest rest2 0 0
           if e.2.1 = 0 then mant else mant / (10 : Rat) ^ e.1
         | '+' :: rest2 =>
           let e := parseDigitsRest rest2 0 0
           if e.2.1 = 0 then mant else mant * (10 : Rat) ^ e.1
         | _ =>
           let e := parseDigitsRest rest 0 0
           if e.2.1 = 0 then mant else mant * (10 : Rat) ^ e.1)
      | _ => mant
    ⟨if signRest.1 then -scaled else scaled, true⟩

/-- `FLT_MAX` as an exact rational. -/
def FLT_MAX : Rat := (2 ^ 24 - 1) * 2 ^ 104

/-- `DBL_MAX` as an exact rational. -/
def DBL_MAX : Rat := (2 ^ 53 - 1) * 2 ^ 971

/-- `strtof(s, nullptr)`: value kept exact (IEEE rounding not modelled),
`ERANGE` with the saturated magnitude on overflow past `FLT_MAX`, errno
untouched otherwise (underflow not modelled; no claim exercises it). -/
def strtofM (s : String) (errno : Nat) : Rat × Nat :=
  let p := scanFloatText s
  if ¬ p.found then (0, errno)
  else if p.val > FLT_MAX then (FLT_MAX, ERANGE)
  else if p.val < -FLT_MAX then (-FLT_MAX, ERANGE)
  else (p.val, errno)

/-- `strtod(s, nullptr)`, same conventions as `strtofM`. -/
def strtodM (s : String) (errno : Nat) : Rat × Nat :=
  let p := scanFloatText s
  if ¬ p.found then (0, errno)
  else if p.val > DBL_MAX then (DBL_MAX, ERANGE)
  else if p.val < -DBL_MAX then (-DBL_MAX, ERANGE)
  else (p.val, errno)

/-- `rjutils::ExtractFromNumericOrString<DataType>(target_element, member,
default_value)`, lines 196-291: default when the member is absent; full
delegation to `Extract` when the member is a number; on a string member the
`if constexpr` arm for the tag runs its `strtol`-family parser and returns
the default whenever `errno` is nonzero afterwards — the parser never clears
a pre-existing `errno`, so the ambient value is threaded in and the possibly
updated value is returned alongside the result.  Tags without an arm in the
string branch (`bool`, the string family, the generic integral catch-alls)
fall through to the default.  The debug-only `assert(errno != ERANGE)` calls
do not change the returned value. -/
def ExtractFromNumericOrString (target : JValue) (member : String) (t : Tag)
    (d : t.carrier) (errno : Nat) : t.carrier × Nat :=
  match getMember target member with
  | none => (d, errno)
  | some v =>
    if v.isNumber then (Extract target member t d, errno)
    else if v.isString then
      let s := v.getStringVal
      match t, d with
      | .tInt32, d =>
        let r := strtolM s errno
        if r.2 ≠ 0 then (d, r.2) else (r.1, r.2)
      | .tUint32, d =>
        let r := strtoulM s errno
        if r.2 ≠ 0 then (d, r.2) else (r.1, r.2)
      | .tInt64, d =>
        let r := strtollM s errno
        if r.2 ≠ 0 then (d, r.2) else (r.1, r.2)
      | .tUint64, d =>
        let r := strtoullM s errno
        if r.2 ≠ 0 then (d, r.2) else (r.1, r.2)
      | .tFloat32, d =>
        let r := strtofM s errno
        if r.2 ≠ 0 then (d, r.2) else (castF32 r.1, r.2)
      | .tFloat64, d =>
        let r := strtodM s errno
        if r.2 ≠ 0 then (d, r.2) else (r.1, r.2)
      | .tBool, d => (d, errno)
      | .tString, d => (d, errno)
      | .tGenSigned _, d => (d, errno)
      | .tGenUnsigned _, d => (d, errno)
    else (d, errno)

/-- The kind-policy row each tag requires, as the spec's 4.1 table and C1
enumerate them: exact-width integer tags require an integer-stored number
representable at that width, `bool` requires a boolean, the string family
requires a string, and the generic signed / unsigned integral tags alias to
the signed / unsigned 64-bit checks.  C1 gives no row for the floating tags
(they are C8's subject), so they map to `false` here and the C1 theorem
excludes them. -/
def claimKindRow (t : Tag) (v : JValue) : Bool :=
  match t, v with
  | .tInt32, .jInt n => decide (-(2 ^ 31) ≤ n ∧ n < 2 ^ 31)
  | .tUint32, .jInt n => decide (0 ≤ n ∧ n < 2 ^ 32)
  | .tInt64, .jInt n => decide (-(2 ^ 63) ≤ n ∧ n < 2 ^ 63)
  | .tUint64, .jInt n => decide (0 ≤ n ∧ n < 2 ^ 64)
  | .tBool, .jBool _ => true
  | .tString, .jString _ => true
  | .tGenSigned _, .jInt n => decide (-(2 ^ 63) ≤ n ∧ n < 2 ^ 63)
  | .tGenUnsigned _, .jInt n => decide (0 ≤ n ∧ n < 2 ^ 64)
  | _, _ => false

/-- The value `Extract` reads from a kind-matching node: the stored integer,
boolean, string or double verbatim for the exact-width tags; the stored
double narrowed by `castF32` for the 32-bit float tag; and for the generic
integral tags the 64-bit payload implicitly narrowed to the instantiated
width, wrapping out-of-range values. -/
def matchedValue : (t : Tag) → JValue → t.carrier
  | .tInt32, v => v.getIntVal
  | .tUint32, v => v.getIntVal
  | .tInt64, v => v.getIntVal
  | .tUint64, v => v.getIntVal
  | .tBool, v => v.getBoolVal
  | .tFloat32, v => castF32 v.getDoubleVal
  | .tFloat64, v => v.getDoubleVal
  | .tString, v => v.getStringVal
  | .tGenSigned w, v => wrapSigned w v.getIntVal
  | .tGenUnsigned w, v => wrapUnsigned w v.getIntVal

/-- The numeric tags: every tag except `bool` and the string family. -/
def Tag.isNumericTag : Tag → Bool
  | .tBool => false
  | .tString => false
  | _ => true

/-- A document with a stored integer above the 32-bit range, used to exhibit
the generic-arm narrowing. -/
def genNarrowDoc : JValue := JValue.jObject [("a", JValue.jInt (2 ^ 32 + 5))]

/-- Modelled from the spec's words for the floating row of the 4.1 table
("floating-point-representable numeric"): a stored numeric — integer- or
double-stored — is representable in floating point.  This is the spec-side
reading C8 is checked against; the code's own check is `IsDouble()`. -/
def specFloatRepr : JValue → Bool
  | .jInt _ => true
  | .jDouble _ => true
  | _ => false

end RJUtils

namespace CastBits

/-!
Model of `CastKeepingBits<ToType, FromType>` of
`src/castkeepingbits/CastKeepingBits.hpp`: a union type pun between two
equal-sized types, reading back the same bit pattern under the destination
type.  We model the integral instantiations: a two's-complement value of a
`w`-bit type is an `Int` in the type's range, its bit pattern the natural
number `x mod 2^w`, and reading the pattern as the destination type
reinterprets it according to the destination's signedness. -/

/-- The `w`-bit two's-complement bit pattern of an integral value. -/
def toBits (w : Nat) (x : Int) : Nat := (x % (2 ^ w : Int)).toNat

/-- `x` inhabits the `w`-bit integral type of the given signedness. -/
def inRange (w : Nat) (signed : Bool) (x : Int) : Prop :=
  if signed then -(2 ^ (w - 1) : Int) ≤ x ∧ x < 2 ^ (w - 1)
  else 0 ≤ x ∧ x < 2 ^ w

instance (w : Nat) (signed : Bool) (x : Int) : Decidable (inRange w signed x) := by
  unfold inRange
  exact inferInstanceAs (Decidable _)

/-- `CastKeepingBits<To>(x)` between `w`-bit integral types, lines 19-25 of
`CastKeepingBits.hpp`: the bit pattern of `x` is kept intact and read back
as the destination type — as an unsigned value when `toSigned` is false,
as a two's-complement signed value when it is true. -/
def CastKeepingBits (w : Nat) (toSigned : Bool) (x : Int) : Int :=
  let b : Int := (toBits w x : Int)
  if toSigned then (if b < 2 ^ (w - 1) then b else b - 2 ^ w) else b

end CastBits

namespace RJUtils

/-- Claim C2: for every type tag and every default value, `Extract` on a
container that lacks the requested key returns exactly the caller-supplied
default. -/
theorem extract_absent_returns_default (doc : JValue) (key : String)
    (t : Tag) (d : t.carrier) (h : getMember doc key = none) :
    Extract doc key t d = d := by
  unfold Extract
  rw [h]

/-- Witness for C2: the empty object lacks `missing_key`, and `Extract`
with the signed-32-bit tag and default 7 returns 7. -/
theorem extract_absent_returns_default_w :
    getMember (JValue.jObject []) "missing_key" = none ∧
      Extract (JValue.jObject []) "missing_key" Tag.tInt32 7 = 7 :=
  ⟨rfl, extract_absent_returns_default (JValue.jObject []) "missing_key"
    Tag.tInt32 7 rfl⟩

/-- Claim C4 (code bug): on the field `"k": "abc"` — text with no parseable
digits — `ExtractFromNumericOrString` with the signed-32-bit tag and default
-1 returns 0, not the default: `strtol` returns 0 without touching `errno`
when no digits convert, and the code's only failure test is `errno != 0`. -/
theorem efnos_malformed_text_returns_zero :
    (ExtractFromNumericOrString (JValue.jObject [("k", JValue.jString "abc")])
      "k" Tag.tInt32 (-1) 0).1 = 0 := by
  decide

/-- Claim C9: `IsValidArray` is true exactly on a present key whose stored
kind is array, and `IsValidObject` exactly on a present key whose stored
kind is object; in particular both are false on a present scalar, and no
type tag is consulted. -/
theorem isValidArray_isValidObject_kind (doc : JValue) (key : String) :
    (IsValidArray doc key = true ↔
      ∃ v, getMember doc key = some v ∧ v.isArray = true) ∧
    (IsValidObject doc key = true ↔
      ∃ v, getMember doc key = some v ∧ v.isObject = true) := by
  unfold IsValidArray IsValidObject
  cases hm : getMember doc key with
  | none => simp
  | some v => simp

/-- Counterexample for C6: on the field `"k": "42"` with the signed-32-bit
tag and default 0, `ExtractFromNumericOrString` returns 42 when the ambient
`errno` is 0 but returns the default 0 when a pre-existing `errno` of 1 is
in effect — the same document, key, tag and default give different results,
so the operation is not independent of the ambient error code. -/
theorem efnos_depends_on_ambient_errno :
    ¬ ((ExtractFromNumericOrString (JValue.jObject [("k", JValue.jString "42")])
          "k" Tag.tInt32 0 0).1 =
       (ExtractFromNumericOrString (JValue.jObject [("k", JValue.jString "42")])
          "k" Tag.tInt32 0 1).1) := by
  decide

theorem strtolM_snd (s : String) (e : Nat) :
    (strtolM s e).2 = e ∨ (strtolM s e).2 = ERANGE := by
  unfold strtolM
  dsimp only
  repeat' split
  all_goals first
  | exact Or.inl rfl
  | exact Or.inr rfl

theorem strtoulM_snd (s : String) (e : Nat) :
    (strtoulM s e).2 = e ∨ (strtoulM s e).2 = ERANGE := by
  unfold strtoulM
  dsimp only
  repeat' split
  all_goals first
  | exact Or.inl rfl
  | exact Or.inr rfl

theorem strtollM_snd (s : String) (e : Nat) :
    (strtollM s e).2 = e ∨ (strtollM s e).2 = ERANGE := by
  unfold strtollM
  dsimp only
  repeat' split
  all_goals first
  | exact Or.inl rfl
  | exact Or.inr rfl

theorem strtoullM_snd (s : String) (e : Nat) :
    (strtoullM s e).2 = e ∨ (strtoullM s e).2 = ERANGE := by
  unfold strtoullM
  dsimp only
  repeat' split
  all_goals first
  | exact Or.inl rfl
  | exact Or.inr rfl

theorem strtofM_snd (s : String) (e : Nat) :
    (strtofM s e).2 = e ∨ (strtofM s e).2 = ERANGE := by
  unfold strtofM
  dsimp only
  repeat' split
  all_goals first
  | exact Or.inl rfl
  | exact Or.inr rfl

theorem strtodM_snd (s : String) (e : Nat) :
    (strtodM s e).2 = e ∨ (strtodM s e).2 = ERANGE := by
  unfold strtodM
  dsimp only
  repeat' split
  all_goals first
  | exact Or.inl rfl
  | exact Or.inr rfl

theorem strtolM_snd_ne_zero (s : String) (e : Nat) (he : e ≠ 0) :
    (strtolM s e).2 ≠ 0 := by
  rcases strtolM_snd s e with h | h <;> rw [h]
  · exact he
  · decide

theorem strtoulM_snd_ne_zero (s : String) (e : Nat) (he : e ≠ 0) :
    (strtoulM s e).2 ≠ 0 := by
  rcases strtoulM_snd s e with h | h <;> rw [h]
  · exact he
  · decide

theorem strtollM_snd_ne_zero (s : String) (e : Nat) (he : e ≠ 0) :
    (strtollM s e).2 ≠ 0 := by
  rcases strtollM_snd s e with h | h <;> rw [h]
  · exact he
  · decide

theorem strtoullM_snd_ne_zero (s : String) (e : Nat) (he : e ≠ 0) :
    (strtoullM s e).2 ≠ 0 := by
  rcases strtoullM_snd s e with h | h <;> rw [h]
  · exact he
  · decide

theorem strtofM_snd_ne_zero (s : String) (e : Nat) (he : e ≠ 0) :
    (strtofM s e).2 ≠ 0 := by
  rcases strtofM_snd s e with h | h <;> rw [h]
  · exact he
  · decide

theorem strtodM_snd_ne_zero (s : String) (e : Nat) (he : e ≠ 0) :
    (strtodM s e).2 ≠ 0 := by
  rcases strtodM_snd s e with h | h <;> rw [h]
  · exact he
  · decide

/-- Claim C7: for every numeric type tag, when the stored member is a
number, `ExtractFromNumericOrString` returns exactly what `Extract` returns
on the same arguments (full delegation), and when the stored member is
neither a number nor a string it returns the default. -/
theorem efnos_numeric_delegates :
    (∀ (doc : JValue) (key : String) (t : Tag) (d : t.carrier) (v : JValue)
        (e : Nat), t.isNumericTag = true → getMember doc key = some v →
        v.isNumber = true →
        (ExtractFromNumericOrString doc key t d e).1 = Extract doc key t d) ∧
    (∀ (doc : JValue) (key : String) (t : Tag) (d : t.carrier) (v : JValue)
        (e : Nat), t.isNumericTag = true → getMember doc key = some v →
        v.isNumber = false → v.isString = false →
        (ExtractFromNumericOrString doc key t d e).1 = d) := by
  constructor
  · intro doc key t d v e _ hv hnum
    unfold ExtractFromNumericOrString
    rw [hv]
    simp [hnum]
  · intro doc key t d v e _ hv hnum hstr
    unfold ExtractFromNumericOrString
    rw [hv]
    simp [hnum, hstr]

/-- Witness for C7: on `{"a": 5, "b": true}` with the signed-32-bit tag,
the coercing extractor agrees with `Extract` on the numeric member `a`, and
returns the default 9 on the boolean member `b`. -/
theorem efnos_numeric_delegates_w :
    (Tag.tInt32.isNumericTag = true ∧
      getMember (JValue.jObject [("a", JValue.jInt 5), ("b", JValue.jBool true)])
        "a" = some (JValue.jInt 5) ∧
      (JValue.jInt 5).isNumber = true ∧
      (ExtractFromNumericOrString
        (JValue.jObject [("a", JValue.jInt 5), ("b", JValue.jBool true)])
        "a" Tag.tInt32 9 0).1 =
        Extract (JValue.jObject [("a", JValue.jInt 5), ("b", JValue.jBool true)])
          "a" Tag.tInt32 9) ∧
    (ExtractFromNumericOrString
        (JValue.jObject [("a", JValue.jInt 5), ("b", JValue.jBool true)])
        "b" Tag.tInt32 9 0).1 = 9 :=
  ⟨⟨rfl, rfl, rfl,
    efnos_numeric_delegates.1
      (JValue.jObject [("a", JValue.jInt 5), ("b", JValue.jBool true)])
      "a" Tag.tInt32 9 (JValue.jInt 5) 0 rfl rfl rfl⟩,
    efnos_numeric_delegates.2
      (JValue.jObject [("a", JValue.jInt 5), ("b", JValue.jBool true)])
      "b" Tag.tInt32 9 (JValue.jBool true) 0 rfl rfl rfl rfl⟩

/-- Amended C6: `IsValid` and `Extract` are pure functions of the document,
key, tag and default alone, and so is the coercing extractor on an absent
key or a numeric member — there it ignores the ambient `errno` and equals
the typed extractor.  On a text member, however, `ExtractFromNumericOrString`
is errno-sensitive: any pre-existing nonzero `errno` makes it return the
default for every tag, because the `strtol` family never clears `errno`. -/
theorem efnos_errno_sensitivity :
    (∀ (doc : JValue) (key : String) (t : Tag) (d : t.carrier) (v : JValue)
        (e : Nat), getMember doc key = some v → v.isNumber = true →
        (ExtractFromNumericOrString doc key t d e).1 = Extract doc key t d) ∧
    (∀ (doc : JValue) (key : String) (t : Tag) (d : t.carrier) (e : Nat),
        getMember doc key = none →
        (ExtractFromNumericOrString doc key t d e).1 = d) ∧
    (∀ (doc : JValue) (key : String) (t : Tag) (d : t.carrier) (s : String)
        (e : Nat), getMember doc key = some (JValue.jString s) → e ≠ 0 →
        (ExtractFromNumericOrString doc key t d e).1 = d) := by
  refine ⟨?_, ?_, ?_⟩
  · intro doc key t d v e hv hnum
    unfold ExtractFromNumericOrString
    rw [hv]
    simp [hnum]
  · intro doc key t d e hv
    unfold ExtractFromNumericOrString
    rw [hv]
  · intro doc key t d s e hv he
    unfold ExtractFromNumericOrString
    rw [hv]
    cases t with
    | tInt32 =>
      simp only [JValue.isNumber, JValue.isString, JValue.getStringVal,
        Bool.false_eq_true, if_false, if_true]
      rw [if_pos (strtolM_snd_ne_zero s e he)]
    | tUint32 =>
      simp only [JValue.isNumber, JValue.isString, JValue.getStringVal,
        Bool.false_eq_true, if_false, if_true]
      rw [if_pos (strtoulM_snd_ne_zero s e he)]
    | tInt64 =>
      simp only [JValue.isNumber, JValue.isString, JValue.getStringVal,
        Bool.false_eq_true, if_false, if_true]
      rw [if_pos (strtollM_snd_ne_zero s e he)]
    | tUint64 =>
      simp only [JValue.isNumber, JValue.isString, JValue.getStringVal,
        Bool.false_eq_true, if_false, if_true]
      rw [if_pos (strtoullM_snd_ne_zero s e he)]
    | tBool =>
      simp [JValue.isNumber, JValue.isString]
    | tFloat32 =>
      simp only [JValue.isNumber, JValue.isString, JValue.getStringVal,
        Bool.false_eq_true, if_false, if_true]
      rw [if_pos (strtofM_snd_ne_zero s e he)]
    | tFloat64 =>
      simp only [JValue.isNumber, JValue.isString, JValue.getStringVal,
        Bool.false_eq_true, if_false, if_true]
      rw [if_pos (strtodM_snd_ne_zero s e he)]
    | tString =>
      simp [JValue.isNumber, JValue.isString]
    | tGenSigned w =>
      simp [JValue.isNumber, JValue.isString]
    | tGenUnsigned w =>
      simp [JValue.isNumber, JValue.isString]

/-- Witness for the amended C6: on `{"k": "42"}` with ambient `errno` 5, the
signed-32-bit coercing extraction returns the default 7; on `{"a": 5}` the
numeric path equals `Extract` for any ambient `errno`. -/
theorem efnos_errno_sensitivity_w :
    (getMember (JValue.jObject [("k", JValue.jString "42")]) "k" =
        some (JValue.jString "42") ∧ (5 : Nat) ≠ 0 ∧
      (ExtractFromNumericOrString (JValue.jObject [("k", JValue.jString "42")])
        "k" Tag.tInt32 7 5).1 = 7) ∧
    (ExtractFromNumericOrString (JValue.jObject [("a", JValue.jInt 5)])
        "a" Tag.tInt32 7 5).1 =
      Extract (JValue.jObject [("a", JValue.jInt 5)]) "a" Tag.tInt32 7 :=
  ⟨⟨rfl, by decide,
    efnos_errno_sensitivity.2.2 (JValue.jObject [("k", JValue.jString "42")])
      "k" Tag.tInt32 7 "42" 5 rfl (by decide)⟩,
    efnos_errno_sensitivity.1 (JValue.jObject [("a", JValue.jInt 5)])
      "a" Tag.tInt32 7 (JValue.jInt 5) 5 rfl rfl⟩

/-- Claim C1: for every container, key and type tag among the rows C1
enumerates (the exact-width integer tags, boolean, the string family and the
generic integral catch-alls — the floating tags carry no row there),
`IsValid` is true iff the key is present and the stored value's kind matches
the tag's policy row, and false in every other case, the absent key
included. -/
theorem isValid_policy_matrix (doc : JValue) (key : String) (t : Tag)
    (ht : t ≠ Tag.tFloat32 ∧ t ≠ Tag.tFloat64) :
    IsValid doc key t = true ↔
      ∃ v, getMember doc key = some v ∧ claimKindRow t v = true := by
  unfold IsValid
  cases hm : getMember doc key with
  | none => simp
  | some v =>
    simp only [Option.some.injEq, exists_eq_left']
    rcases ht with ⟨h1, h2⟩
    cases t
    case tFloat32 => exact absurd rfl h1
    case tFloat64 => exact absurd rfl h2
    all_goals
      cases v <;>
        simp [claimKindRow, JValue.isInt, JValue.isUint, JValue.isInt64,
          JValue.isUint64, JValue.isBool, JValue.isString]

/-- Witness for C1: `{"a": 5}` with the signed-32-bit tag. -/
theorem isValid_policy_matrix_w :
    (Tag.tInt32 ≠ Tag.tFloat32 ∧ Tag.tInt32 ≠ Tag.tFloat64) ∧
      (IsValid (JValue.jObject [("a", JValue.jInt 5)]) "a" Tag.tInt32 = true ↔
        ∃ v, getMember (JValue.jObject [("a", JValue.jInt 5)]) "a" = some v ∧
          claimKindRow Tag.tInt32 v = true) :=
  ⟨by decide,
    isValid_policy_matrix (JValue.jObject [("a", JValue.jInt 5)]) "a"
      Tag.tInt32 (by decide)⟩

/-- Amended C3: for every type tag, on a present key whose stored kind
matches the tag's policy, `Extract` returns the value `matchedValue`
records: the stored value verbatim for the exact-width integer, boolean,
string and double tags; the stored double narrowed by `castF32` for the
32-bit float tag; and for the generic integral tags the 64-bit payload
implicitly narrowed to the instantiated type's width, wrapping out-of-range
values.  On a present key whose kind does not match the policy it returns
the caller's default. -/
theorem extract_present_reads_or_defaults (doc : JValue) (key : String)
    (t : Tag) (d : t.carrier) (v : JValue)
    (hv : getMember doc key = some v) :
    (IsValid doc key t = true → Extract doc key t d = matchedValue t v) ∧
    (IsValid doc key t = false → Extract doc key t d = d) := by
  unfold IsValid Extract
  rw [hv]
  cases t <;> cases v <;>
    refine ⟨fun h => ?_, fun h => ?_⟩ <;>
      simp_all [matchedValue, JValue.isInt, JValue.isUint, JValue.isInt64,
        JValue.isUint64, JValue.isBool, JValue.isString, JValue.isDouble,
        JValue.getIntVal, JValue.getBoolVal, JValue.getStringVal,
        JValue.getDoubleVal, castF32]

/-- Counterexample for C3 as originally stated: in `{"a": 2^32 + 5}` with
the generic signed tag at width 32 (`long` on the modelled LLP64 ABI) and
default 9, the stored kind matches the policy (`IsInt64()` passes), yet
`Extract` returns 5 — the 64-bit payload wrapped to 32 bits — which is
neither the stored value `2^32 + 5` nor the default. -/
theorem extract_generic_narrowing_cex :
    getMember genNarrowDoc "a" = some (JValue.jInt (2 ^ 32 + 5)) ∧
    IsValid genNarrowDoc "a" (Tag.tGenSigned 32) = true ∧
    Extract genNarrowDoc "a" (Tag.tGenSigned 32) 9 = 5 ∧
    Extract genNarrowDoc "a" (Tag.tGenSigned 32) 9 ≠
      (JValue.jInt (2 ^ 32 + 5)).getIntVal ∧
    Extract genNarrowDoc "a" (Tag.tGenSigned 32) 9 ≠ 9 := by
  refine ⟨rfl, by decide, by decide, by decide, by decide⟩

/-- Witness for the amended C3: in `{"a": 5, "d": true}` the signed-32-bit
extraction of `a` reads the stored 5, the generic signed extraction at
width 16 reads it through the (here lossless) narrowing, and the
signed-32-bit extraction of the boolean `d` (kind mismatch) returns the
default 9. -/
theorem extract_present_reads_or_defaults_w :
    getMember (JValue.jObject [("a", JValue.jInt 5), ("d", JValue.jBool true)])
        "a" = some (JValue.jInt 5) ∧
      Extract (JValue.jObject [("a", JValue.jInt 5), ("d", JValue.jBool true)])
        "a" Tag.tInt32 9 = matchedValue Tag.tInt32 (JValue.jInt 5) ∧
      Extract (JValue.jObject [("a", JValue.jInt 5), ("d", JValue.jBool true)])
        "a" (Tag.tGenSigned 16) 9 =
        matchedValue (Tag.tGenSigned 16) (JValue.jInt 5) ∧
      Extract (JValue.jObject [("a", JValue.jInt 5), ("d", JValue.jBool true)])
        "d" Tag.tInt32 9 = 9 :=
  ⟨rfl,
    (extract_present_reads_or_defaults
      (JValue.jObject [("a", JValue.jInt 5), ("d", JValue.jBool true)])
      "a" Tag.tInt32 9 (JValue.jInt 5) rfl).1 (by decide),
    (extract_present_reads_or_defaults
      (JValue.jObject [("a", JValue.jInt 5), ("d", JValue.jBool true)])
      "a" (Tag.tGenSigned 16) 9 (JValue.jInt 5) rfl).1 (by decide),
    (extract_present_reads_or_defaults
      (JValue.jObject [("a", JValue.jInt 5), ("d", JValue.jBool true)])
      "d" Tag.tInt32 9 (JValue.jBool true) rfl).2 (by decide)⟩

/-- Claim C5: with the signed-32-bit tag, `ExtractFromNumericOrString` on a
text field `"42"` returns 42 and on `"99999999999999"` (past the signed
32-bit range) returns the caller's default, never a truncated or wrapped
value; in general, for each integer tag, whenever the text parse reports
overflow (`errno` set to `ERANGE` by the `strtol`-family call) the default
is returned.  The ambient `errno` is 0, the clean state C5 presumes. -/
theorem efnos_text_overflow_default :
    (∀ (doc : JValue) (key : String) (d : Int),
        getMember doc key = some (JValue.jString "42") →
        (ExtractFromNumericOrString doc key Tag.tInt32 d 0).1 = 42) ∧
    (∀ (doc : JValue) (key : String) (d : Int),
        getMember doc key = some (JValue.jString "99999999999999") →
        (ExtractFromNumericOrString doc key Tag.tInt32 d 0).1 = d) ∧
    (∀ (doc : JValue) (key : String) (d : Int) (s : String) (e : Nat),
        getMember doc key = some (JValue.jString s) →
        (strtolM s e).2 = ERANGE →
        (ExtractFromNumericOrString doc key Tag.tInt32 d e).1 = d) ∧
    (∀ (doc : JValue) (key : String) (d : Int) (s : String) (e : Nat),
        getMember doc key = some (JValue.jString s) →
        (strtoulM s e).2 = ERANGE →
        (ExtractFromNumericOrString doc key Tag.tUint32 d e).1 = d) ∧
    (∀ (doc : JValue) (key : String) (d : Int) (s : String) (e : Nat),
        getMember doc key = some (JValue.jString s) →
        (strtollM s e).2 = ERANGE →
        (ExtractFromNumericOrString doc key Tag.tInt64 d e).1 = d) ∧
    (∀ (doc : JValue) (key : String) (d : Int) (s : String) (e : Nat),
        getMember doc key = some (JValue.jString s) →
        (strtoullM s e).2 = ERANGE →
        (ExtractFromNumericOrString doc key Tag.tUint64 d e).1 = d) := by
  refine ⟨?_, ?_, ?_, ?_, ?_, ?_⟩
  · intro doc key d hv
    unfold ExtractFromNumericOrString
    rw [hv]
    have h42 : strtolM "42" 0 = (42, 0) := by decide
    simp [JValue.isNumber, JValue.isString, JValue.getStringVal, h42]
  · intro doc key d hv
    unfold ExtractFromNumericOrString
    rw [hv]
    have hbig : strtolM "99999999999999" 0 = (2 ^ 31 - 1, ERANGE) := by decide
    simp [JValue.isNumber, JValue.isString, JValue.getStringVal, hbig, ERANGE]
  · intro doc key d s e hv hov
    unfold ExtractFromNumericOrString
    rw [hv]
    simp [JValue.isNumber, JValue.isString, JValue.getStringVal, hov, ERANGE]
  · intro doc key d s e hv hov
    unfold ExtractFromNumericOrString
    rw [hv]
    simp [JValue.isNumber, JValue.isString, JValue.getStringVal, hov, ERANGE]
  · intro doc key d s e hv hov
    unfold ExtractFromNumericOrString
    rw [hv]
    simp [JValue.isNumber, JValue.isString, JValue.getStringVal, hov, ERANGE]
  · intro doc key d s e hv hov
    unfold ExtractFromNumericOrString
    rw [hv]
    simp [JValue.isNumber, JValue.isString, JValue.getStringVal, hov, ERANGE]

/-- Witness for C5: `{"b": "42", "g": "99999999999999"}` with default 7:
member `b` extracts to 42, member `g` to the default 7. -/
theorem efnos_text_overflow_default_w :
    getMember (JValue.jObject [("b", JValue.jString "42"),
        ("g", JValue.jString "99999999999999")]) "b" =
      some (JValue.jString "42") ∧
    (ExtractFromNumericOrString (JValue.jObject [("b", JValue.jString "42"),
        ("g", JValue.jString "99999999999999")]) "b" Tag.tInt32 7 0).1 = 42 ∧
    (ExtractFromNumericOrString (JValue.jObject [("b", JValue.jString "42"),
        ("g", JValue.jString "99999999999999")]) "g" Tag.tInt32 7 0).1 = 7 :=
  ⟨rfl,
    efnos_text_overflow_default.1 (JValue.jObject [("b", JValue.jString "42"),
      ("g", JValue.jString "99999999999999")]) "b" 7 rfl,
    efnos_text_overflow_default.2.1
      (JValue.jObject [("b", JValue.jString "42"),
        ("g", JValue.jString "99999999999999")]) "g" 7 rfl⟩

/-- Counterexample for C8: in `{"a": 5}` the value stored at `a` is a
numeric representable in floating point (`specFloatRepr` holds of it), yet
`IsValid` with a floating tag returns false: the code checks `IsDouble()`,
the double-stored kind, which an integer-stored 5 fails. -/
theorem isValid_float_repr_cex :
    ¬ (IsValid (JValue.jObject [("a", JValue.jInt 5)]) "a" Tag.tFloat64 = true ↔
        ∃ v, getMember (JValue.jObject [("a", JValue.jInt 5)]) "a" = some v ∧
          specFloatRepr v = true) := by
  intro h
  have hval : IsValid (JValue.jObject [("a", JValue.jInt 5)]) "a"
      Tag.tFloat64 = true := h.mpr ⟨JValue.jInt 5, rfl, rfl⟩
  exact absurd hval (by decide)

/-- Amended C8: for every floating-point tag (32-bit float, or the
64-bit/generic floating arm), `IsValid` on a present key is true iff the
stored value is a double-stored number (`IsDouble()`); an integer-stored
numeric fails the check.  One policy row indeed governs every floating tag
alike. -/
theorem isValid_float_isDouble (doc : JValue) (key : String) (t : Tag)
    (ht : t = Tag.tFloat32 ∨ t = Tag.tFloat64) :
    IsValid doc key t = true ↔
      ∃ v, getMember doc key = some v ∧ v.isDouble = true := by
  unfold IsValid
  cases hm : getMember doc key with
  | none => simp
  | some v => rcases ht with h | h <;> subst h <;> simp

/-- Witness for the amended C8: `{"x": 3/2}` with the 32-bit float tag. -/
theorem isValid_float_isDouble_w :
    (Tag.tFloat32 = Tag.tFloat32 ∨ Tag.tFloat32 = Tag.tFloat64) ∧
      (IsValid (JValue.jObject [("x", JValue.jDouble (3 / 2))]) "x"
          Tag.tFloat32 = true ↔
        ∃ v, getMember (JValue.jObject [("x", JValue.jDouble (3 / 2))]) "x" =
            some v ∧ v.isDouble = true) :=
  ⟨Or.inl rfl,
    isValid_float_isDouble (JValue.jObject [("x", JValue.jDouble (3 / 2))])
      "x" Tag.tFloat32 (Or.inl rfl)⟩

end RJUtils

namespace CastBits

theorem add_pow_emod (x : Int) (w : Nat) :
    (x + 2 ^ w) % 2 ^ w = x % 2 ^ w := by
  have h := Int.add_mul_emod_self_left x (2 ^ w) 1
  rw [mul_one] at h
  exact h

theorem sub_pow_emod (x : Int) (w : Nat) :
    (x - 2 ^ w) % 2 ^ w = x % 2 ^ w := by
  have h := Int.add_mul_emod_self_left x (2 ^ w) (-1)
  rw [mul_neg_one, ← sub_eq_add_neg] at h
  exact h

theorem toBits_CastKeepingBits (w : Nat) (s : Bool) (x : Int) :
    toBits w (CastKeepingBits w s x) = toBits w x := by
  unfold CastKeepingBits toBits
  have hM : (0 : Int) < 2 ^ w := by positivity
  have h0 : 0 ≤ x % 2 ^ w := Int.emod_nonneg x (ne_of_gt hM)
  have h1 : x % 2 ^ w < 2 ^ w := Int.emod_lt_of_pos x hM
  have hb : ((x % 2 ^ w).toNat : Int) = x % 2 ^ w := Int.toNat_of_nonneg h0
  cases s with
  | false =>
    rw [if_neg Bool.false_ne_true, hb, Int.emod_emod_of_dvd x dvd_rfl]
  | true =>
    rw [if_pos rfl, hb]
    split
    · rw [Int.emod_emod_of_dvd x dvd_rfl]
    · rw [sub_pow_emod, Int.emod_emod_of_dvd x dvd_rfl]

theorem CastKeepingBits_congr (w : Nat) (s : Bool) (y x : Int)
    (h : toBits w y = toBits w x) :
    CastKeepingBits w s y = CastKeepingBits w s x := by
  unfold CastKeepingBits
  rw [h]

theorem CastKeepingBits_id (w : Nat) (s : Bool) (x : Int) (hw : 0 < w)
    (hx : inRange w s x) : CastKeepingBits w s x = x := by
  unfold CastKeepingBits toBits
  unfold inRange at hx
  have hM : (0 : Int) < 2 ^ w := by positivity
  have hH : (0 : Int) < 2 ^ (w - 1) := by positivity
  have hMH : (2 : Int) ^ w = 2 * 2 ^ (w - 1) := by
    conv_lhs => rw [show w = w - 1 + 1 from (Nat.succ_pred_eq_of_pos hw).symm]
    rw [pow_succ]
    ring
  cases s with
  | false =>
    rw [if_neg Bool.false_ne_true] at hx ⊢
    rw [Int.emod_eq_of_lt hx.1 hx.2, Int.toNat_of_nonneg hx.1]
  | true =>
    rw [if_pos rfl] at hx ⊢
    rcases le_or_lt 0 x with hpos | hneg
    · have hxm : x % 2 ^ w = x :=
        Int.emod_eq_of_lt hpos (by linarith [hx.2])
      rw [hxm, Int.toNat_of_nonneg hpos, if_pos hx.2]
    · have hsum : (x + 2 ^ w) % 2 ^ w = x + 2 ^ w :=
        Int.emod_eq_of_lt (by linarith [hx.1]) (by linarith)
      have hxm : x % 2 ^ w = x + 2 ^ w := by
        rw [← add_pow_emod x w, hsum]
      have hge : ¬ (x + 2 ^ w < 2 ^ (w - 1)) := by
        push_neg
        linarith [hx.1]
      rw [hxm, Int.toNat_of_nonneg (by linarith [hx.1] : 0 ≤ x + 2 ^ w),
        if_neg hge]
      ring

/-- Claim C10: `CastKeepingBits` between two integral types of the same
width `w` preserves the exact two's-complement bit pattern of its argument,
and casting back to the source type is the identity: for every `x`
inhabiting the `w`-bit source type, the round trip returns `x`. -/
theorem CastKeepingBits_preserves_bits (w : Nat) (sf st : Bool) (x : Int)
    (hw : 0 < w) (hx : inRange w sf x) :
    toBits w (CastKeepingBits w st x) = toBits w x ∧
    CastKeepingBits w sf (CastKeepingBits w st x) = x :=
  ⟨toBits_CastKeepingBits w st x,
    (CastKeepingBits_congr w sf (CastKeepingBits w st x) x
        (toBits_CastKeepingBits w st x)).trans
      (CastKeepingBits_id w sf x hw hx)⟩

/-- Witness for C10: the signed 32-bit value -5 cast to the unsigned view
keeps its bit pattern and round-trips back to -5. -/
theorem CastKeepingBits_preserves_bits_w :
    ((0 : Nat) < 32 ∧ inRange 32 true (-5)) ∧
      toBits 32 (CastKeepingBits 32 false (-5)) = toBits 32 (-5) ∧
      CastKeepingBits 32 true (CastKeepingBits 32 false (-5)) = -5 :=
  ⟨⟨by decide, by decide⟩,
    (CastKeepingBits_preserves_bits 32 true false (-5) (by decide)
        (by decide)).1,
    (CastKeepingBits_preserves_bits 32 true false (-5) (by decide)
        (by decide)).2⟩

end CastBits
